import Mathlib

/-!
Verification of the CodeSolver AI repository: a browser chat client with a
model-fallback streaming gateway (the Next.js `POST /api/chat` route handler)
and a client-side incremental transcript reducer (the `ChatApp` component).

The definitions below are a shallow embedding of the TypeScript source.
External effects (the upstream model-listing HTTP call, the per-model
stream-open call, `Date.now()`, the request body parse) are passed in as
explicit values or oracles; everything else follows the source line by line.
-/

/-! ## JavaScript string helpers

`String.prototype.trim`, `String.prototype.includes`, and
`String.prototype.replace` (first occurrence, used with an empty
replacement) modelled on lists of characters. -/

/-- Characters removed by JavaScript `trim` (WhiteSpace and LineTerminator). -/
def isJsWhitespace (c : Char) : Bool :=
  c = ' ' || c = '\t' || c = '\n' || c = '\r' ||
  c = '\x0b' || c = '\x0c' || c = '\u00A0' ||
  c = '\u2028' || c = '\u2029' || c = '\uFEFF'

/-- JavaScript `s.trim()`: drop whitespace from both ends. -/
def jsTrim (s : String) : String :=
  String.mk ((((s.data.dropWhile isJsWhitespace).reverse).dropWhile isJsWhitespace).reverse)

/-- Whether `pat` occurs as a contiguous run inside `l`
(JavaScript `String.prototype.includes`). -/
def containsRun (pat : List Char) : List Char → Bool
  | [] => pat.isEmpty
  | c :: rest => pat.isPrefixOf (c :: rest) || containsRun pat rest

/-- JavaScript `s.includes(pat)`. -/
def strIncludes (s pat : String) : Bool :=
  containsRun pat.data s.data

/-- JavaScript `s.replace(pat, "")`: remove the first occurrence of `pat`. -/
def removeFirstRun (pat : List Char) : List Char → List Char
  | [] => []
  | c :: rest =>
    if pat.isPrefixOf (c :: rest) then (c :: rest).drop pat.length
    else c :: removeFirstRun pat rest

/-! ## Gateway data model (`src/app/api/chat/route.ts`) -/

/-- Role tag of a request message, `"user" | "assistant"` in the source. -/
inductive ChatRole
  | user
  | assistant
deriving DecidableEq, Repr

/-- Inline image payload carried by a message. -/
structure ChatImage where
  mimeType : String
  data : String
  name : String
deriving DecidableEq, Repr

/-- `RequestMessage` from the route handler. -/
structure RequestMessage where
  role : ChatRole
  content : String
  image : Option ChatImage
deriving DecidableEq, Repr

/-- One entry of the upstream `ListModelsResponse.models` array. -/
structure GenModel where
  name : Option String
  supportedGenerationMethods : Option (List String)
deriving DecidableEq, Repr

/-- Parsed JSON payload of the upstream model-listing call. -/
structure ListModelsResponse where
  models : Option (List GenModel)
deriving DecidableEq, Repr

/-- `PREFERRED_MODEL_ORDER` from the source. -/
def PREFERRED_MODEL_ORDER : List String :=
  ["gemini-1.5-pro-latest", "gemini-1.5-flash-latest", "gemini-pro"]

/-- `CACHE_DURATION_MS` from the source: one hour. -/
def CACHE_DURATION_MS : Nat := 60 * 60 * 1000

/-- The process-wide module state `cachedModels` / `lastModelFetchTime`. -/
structure ModelCache where
  cachedModels : List String
  lastModelFetchTime : Nat
deriving DecidableEq, Repr

/-- Outcome of the one upstream model-listing HTTP call: a parsed JSON
payload when `response.ok`, or a failure (non-2xx status or transport
error, both of which throw in the source). -/
inductive ListingOutcome
  | ok (payload : ListModelsResponse)
  | fail
deriving DecidableEq, Repr

/-- The eligible model identifiers computed from a listing payload:
filter to `generateContent` support, strip the `models/` tag from the
name, drop entries with no name or an empty result
(`payload.models?.filter(...).map(...).filter(Boolean) ?? []`). -/
def computeModelIds (payload : ListModelsResponse) : List String :=
  ((payload.models.getD []).filter
      (fun m => (m.supportedGenerationMethods.getD []).contains "generateContent")).filterMap
    (fun m =>
      m.name.bind (fun n =>
        let s := String.mk (removeFirstRun "models/".data n.data)
        if s.isEmpty then none else some s))

/-- `getAvailableModels`, state-passing: takes the module cache, the current
time, and the listing outcome; returns the model list, the updated cache and
the number of listing HTTP calls performed, or the thrown error. -/
def getAvailableModels (cache : ModelCache) (now : Nat) (listing : ListingOutcome) :
    Except String (List String × ModelCache × Nat) :=
  if 0 < cache.cachedModels.length ∧ now - cache.lastModelFetchTime < CACHE_DURATION_MS then
    Except.ok (cache.cachedModels, cache, 0)
  else
    match listing with
    | ListingOutcome.fail => Except.error "Failed to list models"
    | ListingOutcome.ok payload =>
      let modelIds := computeModelIds payload
      let ordered := PREFERRED_MODEL_ORDER.filter (fun n => modelIds.contains n)
      let remaining := modelIds.filter (fun n => !ordered.contains n && !strIncludes n "embedding")
      let allAvailableModels := ordered ++ remaining
      Except.ok (allAvailableModels, ⟨allAvailableModels, now⟩, 1)

/-- One part of an upstream content turn. -/
inductive GeminiPart
  | text (t : String)
  | inlineData (mimeType : String) (data : String)
deriving DecidableEq, Repr

/-- One turn of the upstream `contents` array. -/
structure GeminiContent where
  role : String
  parts : List GeminiPart
deriving DecidableEq, Repr

/-- `buildGeminiContents` from the source: keep messages with non-empty
trimmed text or an image, tag assistant turns `model` and the rest `user`,
and emit the (untrimmed) text part when the trimmed text is non-empty,
followed by the inline image part when an image is present. -/
def buildGeminiContents (messages : List RequestMessage) : List GeminiContent :=
  (messages.filter
      (fun message => 0 < (jsTrim message.content).length || message.image.isSome)).map
    (fun message =>
      { role := if message.role = ChatRole.assistant then "model" else "user"
        parts :=
          (if 0 < (jsTrim message.content).length then [GeminiPart.text message.content] else []) ++
          (match message.image with
           | some img => [GeminiPart.inlineData img.mimeType img.data]
           | none => []) })

/-- Whether an `Except` is a failure. -/
def exceptFailed : Except String String → Bool
  | Except.error _ => true
  | Except.ok _ => false

/-- The fallback loop body of `POST`: try each candidate in order with the
stream-open oracle; record every attempt; stop at the first success.
Returns the attempted candidates (in order) and the winning stream if any. -/
def tryModels (openResult : String → Except String String) :
    List String → List String × Option String
  | [] => ([], none)
  | m :: rest =>
    match openResult m with
    | Except.ok s => ([m], some s)
    | Except.error _ =>
      let r := tryModels openResult rest
      (m :: r.1, r.2)

/-- The observable outcome of one `POST` invocation: HTTP status, JSON error
body (the string under the `error` key) when present, the winning stream
when present, the number of listing HTTP calls, the candidates on which a
stream open was attempted (in order), and the cache after the call. -/
structure PostOutcome where
  status : Nat
  errorBody : Option String
  stream : Option String
  listingCalls : Nat
  openAttempts : List String
  cacheAfter : ModelCache
deriving DecidableEq, Repr

/-- The `messages` field as found in the parsed JSON body: absent, present
but not an array, or an array of request messages. -/
inductive MessagesField
  | notArray
  | arr (ms : List RequestMessage)
deriving DecidableEq, Repr

/-- Parsed request body (`request.json()` result). -/
structure RequestBody where
  messages : Option MessagesField
deriving DecidableEq, Repr

/-- Tail of `POST` after validation and model resolution: the
zero-candidate check and the fallback loop. -/
def fallbackRespond (openResult : String → Except String String)
    (candidates : List String) (cnt : Nat) (cache' : ModelCache) : PostOutcome :=
  if candidates.isEmpty then
    ⟨500, some "No Gemini models with generateContent support are available for this API key.",
      none, cnt, [], cache'⟩
  else
    let r := tryModels openResult candidates
    match r.2 with
    | some s => ⟨200, none, some s, cnt, r.1, cache'⟩
    | none =>
      ⟨503, some "The AI service is currently unavailable. Please try again later.",
        none, cnt, r.1, cache'⟩

/-- The `POST` route handler. `apiKey` is `process.env.GEMINI_API_KEY`;
`body` is `none` when `request.json()` throws. The `try` block spans the
body parse, validation, model resolution and the fallback loop, and its
`catch` answers 400 with the body-parse error message; a thrown model
resolution error therefore also lands on that 400 response. -/
def POST (apiKey : Option String) (body : Option RequestBody) (cache : ModelCache)
    (now : Nat) (listing : ListingOutcome)
    (openResult : String → Except String String) : PostOutcome :=
  match apiKey with
  | none =>
    ⟨500, some "Missing GEMINI_API_KEY. Add it to your environment variables.", none, 0, [], cache⟩
  | some _ =>
    match body with
    | none => ⟨400, some "Invalid request body. Expected JSON payload.", none, 0, [], cache⟩
    | some b =>
      let msgsOpt : Option (List RequestMessage) :=
        match b.messages with
        | none => some []
        | some MessagesField.notArray => none
        | some (MessagesField.arr ms) => some ms
      match msgsOpt with
      | none =>
        ⟨400, some "Invalid request. 'messages' must be a non-empty array.", none, 0, [], cache⟩
      | some ms =>
        if ms.isEmpty then
          ⟨400, some "Invalid request. 'messages' must be a non-empty array.", none, 0, [], cache⟩
        else
          match getAvailableModels cache now listing with
          | Except.error _ =>
            ⟨400, some "Invalid request body. Expected JSON payload.", none, 1, [], cache⟩
          | Except.ok (candidates, cache', cnt) =>
            fallbackRespond openResult candidates cnt cache'

/-! ## Incremental UTF-8 decoding

The client reads the response body as a byte stream and decodes it with a
`TextDecoder` in streaming mode: a multi-byte character split across chunk
boundaries is held back until its continuation bytes arrive.  The decoder is
modelled as a byte-at-a-time state machine (`stepByte`); a chunk is decoded
by folding `stepByte` over its bytes, carrying the state across chunks. -/

/-- UTF-8 encoding of one character. -/
def utf8EncodeChar (c : Char) : List Nat :=
  let n := c.toNat
  if n < 0x80 then [n]
  else if n < 0x800 then [0xC0 + n / 64, 0x80 + n % 64]
  else if n < 0x10000 then [0xE0 + n / 4096, 0x80 + (n / 64) % 64, 0x80 + n % 64]
  else [0xF0 + n / 0x40000, 0x80 + (n / 4096) % 64, 0x80 + (n / 64) % 64, 0x80 + n % 64]

/-- UTF-8 encoding of a string. -/
def utf8Encode (s : String) : List Nat :=
  (s.data.map utf8EncodeChar).flatten

/-- Streaming decoder state: how many continuation bytes are still expected,
the partial code point accumulated so far, and the characters emitted. -/
structure DecSt where
  need : Nat
  acc : Nat
  out : List Char
deriving DecidableEq, Repr

/-- Feed one byte to the streaming UTF-8 decoder. -/
def stepByte (st : DecSt) (b : Nat) : DecSt :=
  if st.need = 0 then
    if b < 0x80 then ⟨0, 0, st.out ++ [Char.ofNat b]⟩
    else if b < 0xC0 then st
    else if b < 0xE0 then ⟨1, b - 0xC0, st.out⟩
    else if b < 0xF0 then ⟨2, b - 0xE0, st.out⟩
    else if b < 0xF8 then ⟨3, b - 0xF0, st.out⟩
    else st
  else
    let v := st.acc * 64 + (b - 0x80)
    if st.need = 1 then ⟨0, 0, st.out ++ [Char.ofNat v]⟩
    else ⟨st.need - 1, v, st.out⟩

/-- `decoder.decode(chunk, \x7b stream: true \x7d)`: feed a whole chunk. -/
def decodeChunk (st : DecSt) (chunk : List Nat) : DecSt :=
  chunk.foldl stepByte st

/-- The decoder state before the first chunk. -/
def freshDecSt : DecSt := ⟨0, 0, []⟩

/-! ## Reducer data model (`ChatApp` in the client) -/

/-- A message of a chat session. -/
structure ChatMessage where
  id : String
  role : ChatRole
  content : String
  image : Option ChatImage
deriving DecidableEq, Repr

/-- A chat session. -/
structure ChatSession where
  id : String
  title : String
  createdAt : Nat
  updatedAt : Nat
  messages : List ChatMessage
deriving DecidableEq, Repr

/-- The reducer state held by `ChatApp`. -/
structure AppState where
  chats : List ChatSession
  activeChatId : String
  input : String
  inputImage : Option ChatImage
  isStreaming : Bool
  errorMessage : String
deriving DecidableEq, Repr

/-- `deriveTitle` from the source. -/
def deriveTitle (messages : List ChatMessage) : String :=
  match messages.find? (fun message => message.role == ChatRole.user) with
  | none => "New Chat"
  | some firstUserMessage =>
    let firstText := jsTrim firstUserMessage.content
    if !firstText.isEmpty then String.mk (firstText.data.take 50)
    else
      match firstUserMessage.image with
      | some img => "Image: " ++ img.name
      | none => "New Chat"

/-- `upsertChat` from the source: map the updater over the session whose id
matches, leave every other session untouched. -/
def upsertChat (chatId : String) (updater : ChatSession → ChatSession)
    (chats : List ChatSession) : List ChatSession :=
  chats.map (fun chat => if chat.id == chatId then updater chat else chat)

/-- The streaming content update from `sendMessage`: in the session with
`chatId`, replace the content of the message with `assistantId` by the full
accumulated buffer `buf` and bump `updatedAt`; everything else is kept. -/
def applyChunkUpdate (chatId assistantId buf : String) (t : Nat)
    (chats : List ChatSession) : List ChatSession :=
  upsertChat chatId
    (fun chat =>
      { chat with
        messages := chat.messages.map
          (fun message =>
            if message.id == assistantId then { message with content := buf } else message)
        updatedAt := t })
    chats

/-- The same update at the level of the whole reducer state; it never reads
`activeChatId` — the session and message are found by identity. -/
def applyStreamUpdate (app : AppState) (chatId assistantId buf : String) (t : Nat) : AppState :=
  { app with chats := applyChunkUpdate chatId assistantId buf t app.chats }

/-- State threaded through the chunk-reading loop of `sendMessage`:
the sessions and the decoder state (whose `out` is `fullAssistantText`). -/
structure StreamSt where
  chats : List ChatSession
  dec : DecSt
deriving DecidableEq, Repr

/-- One iteration of the read loop: decode the chunk into the running
buffer and overwrite the placeholder's content with the full buffer. -/
def readChunk (chatId assistantId : String) (t : Nat) (st : StreamSt)
    (chunk : List Nat) : StreamSt :=
  let d := decodeChunk st.dec chunk
  ⟨applyChunkUpdate chatId assistantId (String.mk d.out) t st.chats, d⟩

/-- The whole read loop over a chunk sequence. -/
def processStream (chatId assistantId : String) (t : Nat) (chats : List ChatSession)
    (chunks : List (List Nat)) : StreamSt :=
  chunks.foldl (readChunk chatId assistantId t) ⟨chats, freshDecSt⟩

/-- Content of the message `mid` of the session `cid` (first matches). -/
def messageContent (chats : List ChatSession) (cid mid : String) : Option String :=
  (chats.find? (fun c => c.id == cid)).bind fun c =>
    (c.messages.find? (fun m => m.id == mid)).map fun m => m.content

/-- `activeChat` from the source: the session selected by `activeChatId`,
else the first session (`chats.find(...) ?? chats[0]`). -/
def activeChatOf (app : AppState) : Option ChatSession :=
  match app.chats.find? (fun chat => chat.id == app.activeChatId) with
  | some chat => some chat
  | none => app.chats.head?

/-- The admission control and message construction of `sendMessage`: `none`
when the submission is a gated no-op, otherwise the state after the two
appends together with the created user message and assistant placeholder.
`uid`/`aid` are the generated ids, `t` is `Date.now()`. -/
def sendMessage (app : AppState) (uid aid : String) (t : Nat) :
    Option (AppState × ChatMessage × ChatMessage) :=
  let text := jsTrim app.input
  match activeChatOf app with
  | none => none
  | some activeChat =>
    if (text.isEmpty && app.inputImage.isNone) || app.isStreaming then none
    else
      let userMessage : ChatMessage := ⟨uid, ChatRole.user, text, app.inputImage⟩
      let assistantMessage : ChatMessage := ⟨aid, ChatRole.assistant, "", none⟩
      let nextMessages := activeChat.messages ++ [userMessage, assistantMessage]
      let chats' := upsertChat activeChat.id
        (fun chat =>
          { chat with messages := nextMessages, title := deriveTitle nextMessages, updatedAt := t })
        app.chats
      some
        ({ app with
            chats := chats'
            input := ""
            inputImage := none
            isStreaming := true
            errorMessage := "" },
          userMessage, assistantMessage)

/-! ## Spec-side translation functions

Two renderings of the spec sentence about transcript translation, used to
compare `buildGeminiContents` against the claim's words: one with the
trimmed text as the text part (what claim C5 literally says), one with the
original text (what the source does). -/

/-- Transcript translation as claim C5 words it: one turn per message that
has non-empty trimmed text or an image, role `model` for assistant and
`user` otherwise, parts = trimmed text (only if non-empty) then the inline
image payload (only if present). -/
def claimTranslateTrimmed (messages : List RequestMessage) : List GeminiContent :=
  messages.filterMap (fun message =>
    let t := jsTrim message.content
    let parts :=
      (if t.isEmpty then [] else [GeminiPart.text t]) ++
      (match message.image with
       | some img => [GeminiPart.inlineData img.mimeType img.data]
       | none => [])
    if parts.isEmpty then none
    else
      some { role := if message.role = ChatRole.assistant then "model" else "user"
             parts := parts })

/-- The translation with the claim amended: identical to
`claimTranslateTrimmed` except that the text part carries the message's
original (untrimmed) content. -/
def amendedTranslate (messages : List RequestMessage) : List GeminiContent :=
  messages.filterMap (fun message =>
    let t := jsTrim message.content
    let parts :=
      (if t.isEmpty then [] else [GeminiPart.text message.content]) ++
      (match message.image with
       | some img => [GeminiPart.inlineData img.mimeType img.data]
       | none => [])
    if parts.isEmpty then none
    else
      some { role := if message.role = ChatRole.assistant then "model" else "user"
             parts := parts })

/-! ## Helper lemmas -/

/-- A string is the empty literal iff its character list is empty. -/
theorem string_eq_empty_iff (s : String) : s = "" ↔ s.data = [] := by
  cases s
  simp [String.ext_iff]

/-- `String.isEmpty` agrees with equality to the empty literal. -/
theorem string_isEmpty_eq (s : String) : s.isEmpty = true ↔ s = "" :=
  String.isEmpty_iff s

/-! ## C7: invalid `messages` is rejected with 400 and no upstream call -/

/-- C7: for every request with a present API key whose `messages` field is
absent, not an array, or an empty array, `POST` answers 400 with the JSON
error body for invalid requests, performs zero listing calls and attempts
no stream open. -/
theorem invalid_messages_rejected (k : String) (body : RequestBody)
    (cache : ModelCache) (now : Nat) (listing : ListingOutcome)
    (openResult : String → Except String String)
    (hinv : body.messages = none ∨ body.messages = some MessagesField.notArray ∨
            body.messages = some (MessagesField.arr [])) :
    POST (some k) (some body) cache now listing openResult =
      ⟨400, some "Invalid request. 'messages' must be a non-empty array.", none, 0, [], cache⟩ := by
  obtain ⟨mf⟩ := body
  rcases hinv with h | h | h <;> simp only [] at h <;> subst h <;> rfl

/-- Witness for C7 at the empty-array input. -/
theorem invalid_messages_rejected_witness :
    ((⟨some (MessagesField.arr [])⟩ : RequestBody).messages = none ∨
     (⟨some (MessagesField.arr [])⟩ : RequestBody).messages = some MessagesField.notArray ∨
     (⟨some (MessagesField.arr [])⟩ : RequestBody).messages = some (MessagesField.arr [])) ∧
    POST (some "key") (some ⟨some (MessagesField.arr [])⟩) ⟨[], 0⟩ 0 ListingOutcome.fail
        (fun _ => Except.error "unused") =
      ⟨400, some "Invalid request. 'messages' must be a non-empty array.", none, 0, [],
        ⟨[], 0⟩⟩ :=
  ⟨by decide,
   invalid_messages_rejected "key" ⟨some (MessagesField.arr [])⟩ ⟨[], 0⟩ 0 ListingOutcome.fail
     (fun _ => Except.error "unused") (by decide)⟩

/-! ## C2: a failing model-listing call is answered with 400, not 500 -/

/-- C2 (evaluation of the code at the failing input): with a valid API key,
a valid non-empty transcript and a cold cache, a failing listing call makes
`getAvailableModels` throw; the `catch` of `POST` turns it into HTTP 400
with the body-parse error message — not the 500 the spec assigns to
`UpstreamUnavailable`. Exactly one listing call happens (no retry) and no
stream open is attempted. -/
theorem listing_failure_answered_400 :
    getAvailableModels ⟨[], 0⟩ 0 ListingOutcome.fail = Except.error "Failed to list models" ∧
    POST (some "key")
        (some ⟨some (MessagesField.arr [⟨ChatRole.user, "hi", none⟩])⟩)
        ⟨[], 0⟩ 0 ListingOutcome.fail (fun _ => Except.error "unused") =
      ⟨400, some "Invalid request body. Expected JSON payload.", none, 1, [], ⟨[], 0⟩⟩ := by
  exact ⟨rfl, rfl⟩

/-! ## C4: a second resolution inside the TTL window hits the cache -/

/-- C4: if a model-resolution call at `t0` fetched (one listing call) and
produced a non-empty list `ms`, then any later call at `t1` with
`t1 - t0` below the TTL performs zero listing calls and returns exactly
`ms` with the cache unchanged, whatever its own listing outcome would be. -/
theorem cache_hit_within_ttl (cache cache1 : ModelCache) (t0 t1 : Nat)
    (payload : ListModelsResponse) (ms : List String)
    (h1 : getAvailableModels cache t0 (ListingOutcome.ok payload) = Except.ok (ms, cache1, 1))
    (hne : ms ≠ []) (hlt : t1 - t0 < CACHE_DURATION_MS)
    (listing2 : ListingOutcome) :
    getAvailableModels cache1 t1 listing2 = Except.ok (ms, cache1, 0) := by
  unfold getAvailableModels at h1
  by_cases hhit : 0 < cache.cachedModels.length ∧
      t0 - cache.lastModelFetchTime < CACHE_DURATION_MS
  · rw [if_pos hhit] at h1
    simp only [Except.ok.injEq, Prod.mk.injEq] at h1
    omega
  · rw [if_neg hhit] at h1
    simp only [Except.ok.injEq, Prod.mk.injEq] at h1
    obtain ⟨hms, hc1, -⟩ := h1
    have hcache : cache1 = ⟨ms, t0⟩ := by rw [← hc1, hms]
    subst hcache
    unfold getAvailableModels
    rw [if_pos]
    constructor
    · simpa using List.length_pos.mpr hne
    · simpa using hlt

/-- Witness for C4: populate on a miss at time 0, hit at time 10. -/
theorem cache_hit_within_ttl_witness :
    getAvailableModels ⟨[], 0⟩ 0
        (ListingOutcome.ok ⟨some [⟨some "models/gemini-pro", some ["generateContent"]⟩]⟩) =
      Except.ok (["gemini-pro"], ⟨["gemini-pro"], 0⟩, 1) ∧
    getAvailableModels ⟨["gemini-pro"], 0⟩ 10 ListingOutcome.fail =
      Except.ok (["gemini-pro"], ⟨["gemini-pro"], 0⟩, 0) :=
  ⟨rfl,
   cache_hit_within_ttl ⟨[], 0⟩ ⟨["gemini-pro"], 0⟩ 0 10
     ⟨some [⟨some "models/gemini-pro", some ["generateContent"]⟩]⟩ ["gemini-pro"]
     rfl (by decide) (by decide) ListingOutcome.fail⟩

/-! ## C6: resolution order on a cache miss -/

/-- C6: on a cache miss with a successful listing, the resolved list is the
preference list filtered to the eligible ids (hence a subsequence of the
preference list, in its order, skipping unavailable names) followed by the
remaining eligible ids in listing order, none of which carries the
`embedding` marker. -/
theorem resolution_preference_order (cache : ModelCache) (now : Nat)
    (payload : ListModelsResponse)
    (hmiss : ¬ (0 < cache.cachedModels.length ∧
                now - cache.lastModelFetchTime < CACHE_DURATION_MS)) :
    let ids := computeModelIds payload
    let ordered := PREFERRED_MODEL_ORDER.filter (fun n => ids.contains n)
    let remaining := ids.filter (fun n => !ordered.contains n && !strIncludes n "embedding")
    getAvailableModels cache now (ListingOutcome.ok payload) =
      Except.ok (ordered ++ remaining, ⟨ordered ++ remaining, now⟩, 1) ∧
    List.Sublist ordered PREFERRED_MODEL_ORDER ∧
    (∀ m ∈ ordered, m ∈ ids) ∧
    List.Sublist remaining ids ∧
    (∀ m ∈ remaining, strIncludes m "embedding" = false) := by
  refine ⟨?_, List.filter_sublist _, ?_, List.filter_sublist _, ?_⟩
  · unfold getAvailableModels
    rw [if_neg hmiss]
  · intro m hm
    rw [List.mem_filter] at hm
    simpa using hm.2
  · intro m hm
    rw [List.mem_filter] at hm
    have h2 := hm.2
    simp only [Bool.and_eq_true, Bool.not_eq_true'] at h2
    exact h2.2

/-- Witness for C6: a listing with an embedding-only model, a non-preferred
model and a preferred one, on a cold cache. -/
theorem resolution_preference_order_witness :
    (¬ (0 < (⟨[], 0⟩ : ModelCache).cachedModels.length ∧
        5 - (⟨[], 0⟩ : ModelCache).lastModelFetchTime < CACHE_DURATION_MS)) ∧
    getAvailableModels ⟨[], 0⟩ 5
        (ListingOutcome.ok ⟨some
          [⟨some "models/gemini-embedding-001", some ["generateContent"]⟩,
           ⟨some "models/gemini-2.0", some ["generateContent"]⟩,
           ⟨some "models/gemini-1.5-flash-latest", some ["generateContent"]⟩,
           ⟨some "models/other", some ["countTokens"]⟩]⟩) =
      Except.ok (["gemini-1.5-flash-latest", "gemini-2.0"],
        ⟨["gemini-1.5-flash-latest", "gemini-2.0"], 5⟩, 1) :=
  ⟨by decide,
   (resolution_preference_order ⟨[], 0⟩ 5
     ⟨some [⟨some "models/gemini-embedding-001", some ["generateContent"]⟩,
            ⟨some "models/gemini-2.0", some ["generateContent"]⟩,
            ⟨some "models/gemini-1.5-flash-latest", some ["generateContent"]⟩,
            ⟨some "models/other", some ["countTokens"]⟩]⟩ (by decide)).1⟩

/-! ## C1: the fallback loop -/

/-- The fallback loop on a list whose members all fail to open: every
candidate is attempted, in order, and no stream is produced. -/
theorem tryModels_all_fail (openResult : String → Except String String)
    (l : List String) (h : ∀ m ∈ l, exceptFailed (openResult m) = true) :
    tryModels openResult l = (l, none) := by
  induction l with
  | nil => rfl
  | cons m rest ih =>
    have hm := h m (by simp)
    unfold tryModels
    cases hr : openResult m with
    | ok s => rw [hr] at hm; simp [exceptFailed] at hm
    | error e =>
      have := ih (fun x hx => h x (by simp [hx]))
      simp [this]

/-- The fallback loop when every candidate but the last fails and the last
succeeds: every candidate is attempted, in order, and the last one's stream
is returned. -/
theorem tryModels_last_ok (openResult : String → Except String String)
    (front : List String) (lastc s : String)
    (hf : ∀ m ∈ front, exceptFailed (openResult m) = true)
    (hs : openResult lastc = Except.ok s) :
    tryModels openResult (front ++ [lastc]) = (front ++ [lastc], some s) := by
  induction front with
  | nil => simp [tryModels, hs]
  | cons m rest ih =>
    have hm := hf m (by simp)
    rw [List.cons_append]
    unfold tryModels
    cases hr : openResult m with
    | ok s' => rw [hr] at hm; simp [exceptFailed] at hm
    | error e =>
      have := ih (fun x hx => hf x (by simp [hx]))
      simp [this]

/-- `POST` on a key-present, well-formed, non-empty request reduces to the
zero-candidate check plus the fallback loop over the resolved candidates. -/
theorem POST_after_validation (k : String) (b : RequestBody) (ms : List RequestMessage)
    (cache : ModelCache) (now : Nat) (listing : ListingOutcome)
    (openResult : String → Except String String)
    (l : List String) (cache' : ModelCache) (cnt : Nat)
    (hb : b.messages = some (MessagesField.arr ms)) (hms : ms ≠ [])
    (hga : getAvailableModels cache now listing = Except.ok (l, cache', cnt)) :
    POST (some k) (some b) cache now listing openResult =
      fallbackRespond openResult l cnt cache' := by
  obtain ⟨mf⟩ := b
  simp only [] at hb
  subst hb
  have hE : ms.isEmpty = false := by simp [List.isEmpty_iff, hms]
  unfold POST
  simp only [hE, hga]
  rfl

/-- C1: with a validated request and resolved candidate list `l`, (a) if all
candidates before the last fail to open and the last opens with stream `s`,
the response is 200 carrying `s` and the open attempts are exactly `l` in
order (one per candidate, `l.length` in total); (b) if every candidate fails
to open, the response is 503 and carries no stream, again after attempting
exactly `l` in order. -/
theorem gateway_fallback_order (k : String) (b : RequestBody) (ms : List RequestMessage)
    (cache : ModelCache) (now : Nat) (listing : ListingOutcome)
    (openResult : String → Except String String)
    (l : List String) (cache' : ModelCache) (cnt : Nat)
    (hb : b.messages = some (MessagesField.arr ms)) (hms : ms ≠ [])
    (hga : getAvailableModels cache now listing = Except.ok (l, cache', cnt)) :
    (∀ front lastc s, l = front ++ [lastc] →
        (∀ m ∈ front, exceptFailed (openResult m) = true) →
        openResult lastc = Except.ok s →
        POST (some k) (some b) cache now listing openResult =
          ⟨200, none, some s, cnt, l, cache'⟩) ∧
    ((∀ m ∈ l, exceptFailed (openResult m) = true) → l ≠ [] →
        POST (some k) (some b) cache now listing openResult =
          ⟨503, some "The AI service is currently unavailable. Please try again later.",
            none, cnt, l, cache'⟩) := by
  rw [POST_after_validation k b ms cache now listing openResult l cache' cnt hb hms hga]
  constructor
  · intro front lastc s hl hf hs
    subst hl
    have hE : (front ++ [lastc]).isEmpty = false := by simp
    unfold fallbackRespond
    rw [hE]
    simp only [Bool.false_eq_true, if_false]
    rw [tryModels_last_ok openResult front lastc s hf hs]
  · intro hfail hne
    have hE : l.isEmpty = false := by simp [List.isEmpty_iff, hne]
    unfold fallbackRespond
    rw [hE]
    simp only [Bool.false_eq_true, if_false]
    rw [tryModels_all_fail openResult l hfail]

/-- Witness for C1: two candidates, the first fails, the second streams. -/
theorem gateway_fallback_order_witness :
    POST (some "k") (some ⟨some (MessagesField.arr [⟨ChatRole.user, "hi", none⟩])⟩)
        ⟨["m1", "m2"], 0⟩ 0 ListingOutcome.fail
        (fun m => if m == "m2" then Except.ok "s2" else Except.error "boom") =
      ⟨200, none, some "s2", 0, ["m1", "m2"], ⟨["m1", "m2"], 0⟩⟩ :=
  (gateway_fallback_order "k" ⟨some (MessagesField.arr [⟨ChatRole.user, "hi", none⟩])⟩
      [⟨ChatRole.user, "hi", none⟩] ⟨["m1", "m2"], 0⟩ 0 ListingOutcome.fail
      (fun m => if m == "m2" then Except.ok "s2" else Except.error "boom")
      ["m1", "m2"] ⟨["m1", "m2"], 0⟩ 0 rfl (by decide) rfl).1
    ["m1"] "m2" "s2" rfl (by decide) rfl

/-! ## Whitespace lemmas for `jsTrim` -/

/-- The head of `dropWhile p` never satisfies `p`. -/
theorem dropWhile_head_not (p : Char → Bool) (l : List Char) (c : Char)
    (h : (l.dropWhile p).head? = some c) : p c = false := by
  induction l with
  | nil => simp [List.dropWhile] at h
  | cons x xs ih =>
    rw [List.dropWhile_cons] at h
    by_cases hx : p x = true
    · rw [if_pos hx] at h
      exact ih h
    · rw [if_neg hx] at h
      simp only [List.head?_cons, Option.some.injEq] at h
      subst h
      exact Bool.eq_false_iff.mpr hx

/-- Dropping a satisfied run from the front leaves the last element
unchanged, provided anything is left. -/
theorem dropWhile_getLast?_eq (p : Char → Bool) (l : List Char)
    (h : l.dropWhile p ≠ []) : (l.dropWhile p).getLast? = l.getLast? := by
  induction l with
  | nil => exact absurd rfl h
  | cons x xs ih =>
    rw [List.dropWhile_cons] at h ⊢
    by_cases hx : p x = true
    · rw [if_pos hx] at h ⊢
      have hxs : xs ≠ [] := by
        intro hN
        rw [hN] at h
        exact h rfl
      obtain ⟨y, ys, rfl⟩ := List.exists_cons_of_ne_nil hxs
      rw [ih h, List.getLast?_cons_cons]
    · rw [if_neg hx]

/-- The first character of a trimmed string is not whitespace. -/
theorem jsTrim_head_not_ws (s : String) (c : Char)
    (h : (jsTrim s).data.head? = some c) : isJsWhitespace c = false := by
  unfold jsTrim at h
  rw [List.head?_reverse] at h
  have hne : (s.data.dropWhile isJsWhitespace).reverse.dropWhile isJsWhitespace ≠ [] := by
    intro hN
    rw [hN] at h
    simp at h
  rw [dropWhile_getLast?_eq _ _ hne, List.getLast?_reverse] at h
  exact dropWhile_head_not _ _ _ h

/-- The last character of a trimmed string is not whitespace. -/
theorem jsTrim_getLast_not_ws (s : String) (c : Char)
    (h : (jsTrim s).data.getLast? = some c) : isJsWhitespace c = false := by
  unfold jsTrim at h
  rw [List.getLast?_reverse] at h
  exact dropWhile_head_not _ _ _ h

/-! ## C10: content normalization at message creation -/

/-- C10: whenever `sendMessage` accepts a submission, the created user
message's content is exactly the trimmed draft text — hence carries no
leading or trailing whitespace — and the assistant placeholder's content is
the empty string. -/
theorem sendMessage_content_normalized (app : AppState) (uid aid : String) (t : Nat)
    (app' : AppState) (um am : ChatMessage)
    (h : sendMessage app uid aid t = some (app', um, am)) :
    um.content = jsTrim app.input ∧
    (∀ c, um.content.data.head? = some c → isJsWhitespace c = false) ∧
    (∀ c, um.content.data.getLast? = some c → isJsWhitespace c = false) ∧
    am.content = "" := by
  unfold sendMessage at h
  cases hac : activeChatOf app with
  | none => rw [hac] at h; simp at h
  | some active =>
    rw [hac] at h
    dsimp only [] at h
    by_cases hg : (((jsTrim app.input).isEmpty && app.inputImage.isNone) || app.isStreaming) = true
    · rw [if_pos hg] at h
      simp at h
    · rw [if_neg hg] at h
      simp only [Option.some.injEq, Prod.mk.injEq] at h
      obtain ⟨-, hum, ham⟩ := h
      subst hum
      subst ham
      refine ⟨rfl, ?_, ?_, rfl⟩
      · intro c hc
        exact jsTrim_head_not_ws app.input c hc
      · intro c hc
        exact jsTrim_getLast_not_ws app.input c hc

/-- Witness for C10 on a draft with surrounding whitespace. -/
theorem sendMessage_content_normalized_witness :
    sendMessage ⟨[⟨"c1", "New Chat", 0, 0, []⟩], "c1", "  hi  ", none, false, ""⟩ "u1" "a1" 7 =
      some
        (⟨[⟨"c1", "hi", 0, 7,
            [⟨"u1", ChatRole.user, "hi", none⟩, ⟨"a1", ChatRole.assistant, "", none⟩]⟩],
          "c1", "", none, true, ""⟩,
         ⟨"u1", ChatRole.user, "hi", none⟩, ⟨"a1", ChatRole.assistant, "", none⟩) ∧
    ((⟨"u1", ChatRole.user, "hi", none⟩ : ChatMessage).content =
        jsTrim (⟨[⟨"c1", "New Chat", 0, 0, []⟩], "c1", "  hi  ", none, false, ""⟩ : AppState).input ∧
      (∀ c, ("hi" : String).data.head? = some c → isJsWhitespace c = false) ∧
      (∀ c, ("hi" : String).data.getLast? = some c → isJsWhitespace c = false) ∧
      (⟨"a1", ChatRole.assistant, "", none⟩ : ChatMessage).content = "") :=
  ⟨by decide,
   sendMessage_content_normalized
     ⟨[⟨"c1", "New Chat", 0, 0, []⟩], "c1", "  hi  ", none, false, ""⟩ "u1" "a1" 7
     ⟨[⟨"c1", "hi", 0, 7,
        [⟨"u1", ChatRole.user, "hi", none⟩, ⟨"a1", ChatRole.assistant, "", none⟩]⟩],
       "c1", "", none, true, ""⟩
     ⟨"u1", ChatRole.user, "hi", none⟩ ⟨"a1", ChatRole.assistant, "", none⟩
     (by decide)⟩

/-! ## C9: title derivation -/

/-- Counterexample to C9 as stated: a first user message with empty trimmed
text but an image does not default the title to `New Chat` — the source
titles it `Image: ` followed by the file name. -/
theorem deriveTitle_image_counterexample :
    jsTrim (" " : String) = "" ∧
    deriveTitle [⟨"m1", ChatRole.user, " ", some ⟨"image/png", "AA", "x.png"⟩⟩] =
      "Image: x.png" ∧
    deriveTitle [⟨"m1", ChatRole.user, " ", some ⟨"image/png", "AA", "x.png"⟩⟩] ≠
      "New Chat" := by
  refine ⟨by decide, by decide, by decide⟩

/-- C9 amended: the title is the first 50 characters of the first user
message's trimmed text when that is non-empty; `New Chat` when there is no
user message, or when the first user message has empty trimmed text and no
image; and `Image: ` followed by the file name when the first user message
has empty trimmed text but an image. -/
theorem deriveTitle_amended (messages : List ChatMessage) :
    (messages.find? (fun m => m.role == ChatRole.user) = none →
      deriveTitle messages = "New Chat") ∧
    (∀ m0, messages.find? (fun m => m.role == ChatRole.user) = some m0 →
      ((jsTrim m0.content ≠ "" →
          deriveTitle messages = String.mk ((jsTrim m0.content).data.take 50)) ∧
       (jsTrim m0.content = "" → m0.image = none → deriveTitle messages = "New Chat") ∧
       (∀ img, jsTrim m0.content = "" → m0.image = some img →
          deriveTitle messages = "Image: " ++ img.name))) := by
  constructor
  · intro h
    unfold deriveTitle
    rw [h]
  · intro m0 h
    refine ⟨?_, ?_, ?_⟩
    · intro hne
      have hE : (jsTrim m0.content).isEmpty = false := by
        rw [Bool.eq_false_iff]
        intro hT
        exact hne ((string_isEmpty_eq _).mp hT)
      unfold deriveTitle
      rw [h]
      simp [hE]
    · intro hT himg
      have hE : (jsTrim m0.content).isEmpty = true := (string_isEmpty_eq _).mpr hT
      unfold deriveTitle
      rw [h]
      simp [hE, himg]
    · intro img hT himg
      have hE : (jsTrim m0.content).isEmpty = true := (string_isEmpty_eq _).mpr hT
      unfold deriveTitle
      rw [h]
      simp [hE, himg]

/-- Witness for C9 on the spec's title-derivation scenario: the derived
title is exactly the first 50 characters of the trimmed text. -/
theorem deriveTitle_amended_witness :
    ([(⟨"m1", ChatRole.user,
        "  fix my bug please with a very long description exceeding fifty characters total",
        none⟩ : ChatMessage)].find? (fun m => m.role == ChatRole.user) =
      some ⟨"m1", ChatRole.user,
        "  fix my bug please with a very long description exceeding fifty characters total",
        none⟩) ∧
    deriveTitle
        [⟨"m1", ChatRole.user,
          "  fix my bug please with a very long description exceeding fifty characters total",
          none⟩] =
      String.mk ((jsTrim
        "  fix my bug please with a very long description exceeding fifty characters total").data.take 50) ∧
    String.mk ((jsTrim
        "  fix my bug please with a very long description exceeding fifty characters total").data.take 50) =
      "fix my bug please with a very long description exc" :=
  ⟨by decide,
   (((deriveTitle_amended
        [⟨"m1", ChatRole.user,
          "  fix my bug please with a very long description exceeding fifty characters total",
          none⟩]).2
      ⟨"m1", ChatRole.user,
        "  fix my bug please with a very long description exceeding fifty characters total",
        none⟩ (by decide)).1 (by decide)),
   by decide⟩

/-! ## C5: transcript translation -/

/-- Counterexample to C5 as stated: the text part carries the original
content, not the trimmed text — on `" hi "` the source emits `" hi "`
while the claim's translation emits `"hi"`. -/
theorem translate_trimmed_counterexample :
    buildGeminiContents [⟨ChatRole.user, " hi ", none⟩] =
      [⟨"user", [GeminiPart.text " hi "]⟩] ∧
    claimTranslateTrimmed [⟨ChatRole.user, " hi ", none⟩] =
      [⟨"user", [GeminiPart.text "hi"]⟩] ∧
    buildGeminiContents [⟨ChatRole.user, " hi ", none⟩] ≠
      claimTranslateTrimmed [⟨ChatRole.user, " hi ", none⟩] := by
  refine ⟨by decide, by decide, by decide⟩

set_option maxRecDepth 4096 in
/-- C5 amended: the source translation produces one turn per message with
non-empty trimmed text or an image (the rest are dropped), tags assistant
turns `model` and the rest `user`, and emits the original (untrimmed) text
part when the trimmed text is non-empty, then the inline image part when an
image is present. -/
theorem translate_transcript_amended (messages : List RequestMessage) :
    buildGeminiContents messages = amendedTranslate messages := by
  induction messages with
  | nil => rfl
  | cons m ms ih =>
    unfold buildGeminiContents amendedTranslate
    unfold buildGeminiContents amendedTranslate at ih
    rw [List.filter_cons, List.filterMap_cons]
    by_cases ht : jsTrim m.content = ""
    · have hlen : ¬ 0 < (jsTrim m.content).length := by
        rw [ht]
        decide
      have hE : (jsTrim m.content).isEmpty = true := (string_isEmpty_eq _).mpr ht
      cases him : m.image with
      | none =>
        simp [hlen, hE, him, ih]
      | some img =>
        simp [hlen, hE, him, ih]
    · have hlen : 0 < (jsTrim m.content).length := by
        have : (jsTrim m.content).data ≠ [] := by
          intro hN
          exact ht ((string_eq_empty_iff _).mpr hN)
        exact List.length_pos.mpr this
      have hE : (jsTrim m.content).isEmpty = false := by
        rw [Bool.eq_false_iff]
        intro hT
        exact ht ((string_isEmpty_eq _).mp hT)
      cases him : m.image with
      | none => simp [hlen, hE, him, ih]
      | some img => simp [hlen, hE, him, ih]

/-! ## C8: streaming updates are keyed by identity -/

/-- C8: a streaming (or failure-string) content update applies exactly to
the session with the captured id and, inside it, exactly to the message
with the captured placeholder id; every other session and message is left
unchanged, and the result does not depend on `activeChatId` at all. -/
theorem stream_update_by_identity (chats : List ChatSession)
    (activeOne activeTwo cid aid buf : String) (t : Nat) (i : Nat) :
    (applyChunkUpdate cid aid buf t chats).length = chats.length ∧
    (∀ c, chats[i]? = some c → c.id ≠ cid →
        (applyChunkUpdate cid aid buf t chats)[i]? = some c) ∧
    (∀ c, chats[i]? = some c → c.id = cid →
        (applyChunkUpdate cid aid buf t chats)[i]? =
          some { c with
                 messages := c.messages.map (fun m =>
                   if m.id == aid then { m with content := buf } else m)
                 updatedAt := t }) ∧
    (∀ (msgs : List ChatMessage) (j : Nat) (m : ChatMessage), msgs[j]? = some m →
        ((m.id ≠ aid →
            (msgs.map (fun m' =>
              if m'.id == aid then { m' with content := buf } else m'))[j]? = some m) ∧
         (m.id = aid →
            (msgs.map (fun m' =>
              if m'.id == aid then { m' with content := buf } else m'))[j]? =
              some { m with content := buf }))) ∧
    (applyStreamUpdate ⟨chats, activeOne, "", none, true, ""⟩ cid aid buf t).chats =
      (applyStreamUpdate ⟨chats, activeTwo, "", none, true, ""⟩ cid aid buf t).chats := by
  refine ⟨?_, ?_, ?_, ?_, rfl⟩
  · unfold applyChunkUpdate upsertChat
    exact List.length_map _ _
  · intro c hc hne
    unfold applyChunkUpdate upsertChat
    rw [List.getElem?_map, hc]
    have : (c.id == cid) = false := by
      rw [beq_eq_false_iff_ne]
      exact hne
    simp [this]
    exact fun h => absurd h hne
  · intro c hc heq
    unfold applyChunkUpdate upsertChat
    rw [List.getElem?_map, hc]
    have : (c.id == cid) = true := by
      rw [beq_iff_eq]
      exact heq
    simp [this]
    exact fun h => absurd heq h
  · intro msgs j m hm
    constructor
    · intro hne
      rw [List.getElem?_map, hm]
      have : (m.id == aid) = false := by
        rw [beq_eq_false_iff_ne]
        exact hne
      simp [this]
      exact fun h => absurd h hne
    · intro heq
      rw [List.getElem?_map, hm]
      have : (m.id == aid) = true := by
        rw [beq_iff_eq]
        exact heq
      simp [this]
      exact fun h => absurd heq h

/-- Witness for C8: two sessions, active id pointing elsewhere; the update
lands on session `c1`'s placeholder `a1` only, and the non-matching session
at index 0 is untouched. -/
theorem stream_update_by_identity_witness :
    (applyChunkUpdate "c1" "a1" "hello" 9
        [⟨"c0", "t0", 0, 0, [⟨"a1", ChatRole.assistant, "old", none⟩]⟩,
         ⟨"c1", "t1", 0, 0,
           [⟨"u1", ChatRole.user, "q", none⟩, ⟨"a1", ChatRole.assistant, "", none⟩]⟩])[0]? =
      some ⟨"c0", "t0", 0, 0, [⟨"a1", ChatRole.assistant, "old", none⟩]⟩ ∧
    (applyChunkUpdate "c1" "a1" "hello" 9
        [⟨"c0", "t0", 0, 0, [⟨"a1", ChatRole.assistant, "old", none⟩]⟩,
         ⟨"c1", "t1", 0, 0,
           [⟨"u1", ChatRole.user, "q", none⟩, ⟨"a1", ChatRole.assistant, "", none⟩]⟩])[1]? =
      some ⟨"c1", "t1", 0, 9,
        [⟨"u1", ChatRole.user, "q", none⟩, ⟨"a1", ChatRole.assistant, "hello", none⟩]⟩ := by
  constructor
  · exact
      (stream_update_by_identity
        [⟨"c0", "t0", 0, 0, [⟨"a1", ChatRole.assistant, "old", none⟩]⟩,
         ⟨"c1", "t1", 0, 0,
           [⟨"u1", ChatRole.user, "q", none⟩, ⟨"a1", ChatRole.assistant, "", none⟩]⟩]
        "x" "y" "c1" "a1" "hello" 9 0).2.1
        ⟨"c0", "t0", 0, 0, [⟨"a1", ChatRole.assistant, "old", none⟩]⟩ rfl (by decide)
  · have h :=
      (stream_update_by_identity
        [⟨"c0", "t0", 0, 0, [⟨"a1", ChatRole.assistant, "old", none⟩]⟩,
         ⟨"c1", "t1", 0, 0,
           [⟨"u1", ChatRole.user, "q", none⟩, ⟨"a1", ChatRole.assistant, "", none⟩]⟩]
        "x" "y" "c1" "a1" "hello" 9 1).2.2.1
        ⟨"c1", "t1", 0, 0,
          [⟨"u1", ChatRole.user, "q", none⟩, ⟨"a1", ChatRole.assistant, "", none⟩]⟩ rfl rfl
    rw [h]
    decide

/-! ## UTF-8 decoder lemmas -/

/-- An ASCII byte is emitted as one character. -/
theorem stepByte_ascii (out : List Char) (b : Nat) (h : b < 0x80) :
    stepByte ⟨0, 0, out⟩ b = ⟨0, 0, out ++ [Char.ofNat b]⟩ := by
  unfold stepByte
  simp [h]

/-- A two-byte lead byte arms the decoder for one continuation byte. -/
theorem stepByte_lead2 (out : List Char) (b : Nat) (h1 : 0xC0 ≤ b) (h2 : b < 0xE0) :
    stepByte ⟨0, 0, out⟩ b = ⟨1, b - 0xC0, out⟩ := by
  unfold stepByte
  have hn1 : ¬ b < 0x80 := by omega
  have hn2 : ¬ b < 0xC0 := by omega
  simp [hn1, hn2, h2]

/-- A three-byte lead byte arms the decoder for two continuation bytes. -/
theorem stepByte_lead3 (out : List Char) (b : Nat) (h1 : 0xE0 ≤ b) (h2 : b < 0xF0) :
    stepByte ⟨0, 0, out⟩ b = ⟨2, b - 0xE0, out⟩ := by
  unfold stepByte
  have hn1 : ¬ b < 0x80 := by omega
  have hn2 : ¬ b < 0xC0 := by omega
  have hn3 : ¬ b < 0xE0 := by omega
  simp [hn1, hn2, hn3, h2]

/-- A four-byte lead byte arms the decoder for three continuation bytes. -/
theorem stepByte_lead4 (out : List Char) (b : Nat) (h1 : 0xF0 ≤ b) (h2 : b < 0xF8) :
    stepByte ⟨0, 0, out⟩ b = ⟨3, b - 0xF0, out⟩ := by
  unfold stepByte
  have hn1 : ¬ b < 0x80 := by omega
  have hn2 : ¬ b < 0xC0 := by omega
  have hn3 : ¬ b < 0xE0 := by omega
  have hn4 : ¬ b < 0xF0 := by omega
  simp [hn1, hn2, hn3, hn4, h2]

/-- A continuation byte that is not the last one extends the partial value. -/
theorem stepByte_cont_mid (out : List Char) (need acc b : Nat)
    (h0 : need ≠ 0) (h1 : need ≠ 1) :
    stepByte ⟨need, acc, out⟩ b = ⟨need - 1, acc * 64 + (b - 0x80), out⟩ := by
  unfold stepByte
  simp [h0, h1]

/-- The final continuation byte completes and emits the code point. -/
theorem stepByte_cont_last (out : List Char) (acc b : Nat) :
    stepByte ⟨1, acc, out⟩ b = ⟨0, 0, out ++ [Char.ofNat (acc * 64 + (b - 0x80))]⟩ := by
  unfold stepByte
  simp

/-- Feeding the UTF-8 encoding of one character to a clean decoder emits
exactly that character and returns to the clean state. -/
theorem foldl_stepByte_encodeChar (c : Char) (out : List Char) :
    (utf8EncodeChar c).foldl stepByte ⟨0, 0, out⟩ = ⟨0, 0, out ++ [c]⟩ := by
  have hval : c.toNat < 1114112 := by
    have h := c.valid
    have he : c.toNat = c.val.toNat := rfl
    rcases h with h | h <;> omega
  unfold utf8EncodeChar
  by_cases h1 : c.toNat < 0x80
  · rw [if_pos h1]
    simp only [List.foldl_cons, List.foldl_nil]
    rw [stepByte_ascii out c.toNat h1, Char.ofNat_toNat]
  · rw [if_neg h1]
    by_cases h2 : c.toNat < 0x800
    · rw [if_pos h2]
      simp only [List.foldl_cons, List.foldl_nil]
      rw [stepByte_lead2 out (0xC0 + c.toNat / 64) (by omega) (by omega)]
      rw [stepByte_cont_last]
      have harith :
          (0xC0 + c.toNat / 64 - 0xC0) * 64 + (0x80 + c.toNat % 64 - 0x80) = c.toNat := by
        omega
      rw [harith, Char.ofNat_toNat]
    · rw [if_neg h2]
      by_cases h3 : c.toNat < 0x10000
      · rw [if_pos h3]
        simp only [List.foldl_cons, List.foldl_nil]
        rw [stepByte_lead3 out (0xE0 + c.toNat / 4096) (by omega) (by omega)]
        rw [stepByte_cont_mid out 2 _ _ (by omega) (by omega)]
        rw [stepByte_cont_last]
        have harith :
            ((0xE0 + c.toNat / 4096 - 0xE0) * 64 + (0x80 + c.toNat / 64 % 64 - 0x80)) * 64 +
              (0x80 + c.toNat % 64 - 0x80) = c.toNat := by
          omega
        rw [harith, Char.ofNat_toNat]
      · rw [if_neg h3]
        simp only [List.foldl_cons, List.foldl_nil]
        rw [stepByte_lead4 out (0xF0 + c.toNat / 0x40000) (by omega) (by omega)]
        rw [stepByte_cont_mid out 3 _ _ (by omega) (by omega)]
        rw [stepByte_cont_mid out 2 _ _ (by omega) (by omega)]
        rw [stepByte_cont_last]
        have harith :
            (((0xF0 + c.toNat / 0x40000 - 0xF0) * 64 + (0x80 + c.toNat / 4096 % 64 - 0x80)) * 64 +
                (0x80 + c.toNat / 64 % 64 - 0x80)) * 64 + (0x80 + c.toNat % 64 - 0x80) =
              c.toNat := by
          omega
        rw [harith, Char.ofNat_toNat]

/-- Feeding the encoding of a character list to a clean decoder emits
exactly those characters. -/
theorem foldl_stepByte_encodeList (cs : List Char) (out : List Char) :
    ((cs.map utf8EncodeChar).flatten).foldl stepByte ⟨0, 0, out⟩ = ⟨0, 0, out ++ cs⟩ := by
  induction cs generalizing out with
  | nil => simp
  | cons c cs ih =>
    rw [List.map_cons, List.flatten_cons, List.foldl_append, foldl_stepByte_encodeChar, ih]
    simp

/-- Decoding the whole UTF-8 encoding of `s` from a fresh decoder yields
exactly the characters of `s` and a clean final state. -/
theorem decode_utf8Encode (s : String) :
    (utf8Encode s).foldl stepByte freshDecSt = ⟨0, 0, s.data⟩ := by
  unfold utf8Encode freshDecSt
  rw [foldl_stepByte_encodeList]
  simp

/-- Chunk-by-chunk decoding with carried state equals decoding the
concatenated byte stream: the chunk boundaries are invisible. -/
theorem decodeChunks_eq_flatten (chunks : List (List Nat)) (d : DecSt) :
    chunks.foldl decodeChunk d = chunks.flatten.foldl stepByte d := by
  rw [List.foldl_flatten]
  rfl


/-! ## `find?` preservation under identity-keyed updates -/

/-- The first message matching `aid` after a content overwrite is the old
first match with its content overwritten. -/
theorem find?_message_update (aid buf : String) (msgs : List ChatMessage)
    (m0 : ChatMessage) (h : msgs.find? (fun m => m.id == aid) = some m0) :
    (msgs.map (fun m => if m.id == aid then { m with content := buf } else m)).find?
        (fun m => m.id == aid) = some { m0 with content := buf } := by
  induction msgs with
  | nil => simp at h
  | cons x xs ih =>
    rw [List.map_cons]
    by_cases hx : (x.id == aid) = true
    · rw [List.find?_cons_of_pos xs hx] at h
      simp only [Option.some.injEq] at h
      subst h
      rw [if_pos hx]
      exact List.find?_cons_of_pos _ hx
    · rw [List.find?_cons_of_neg xs (by simpa using hx)] at h
      rw [if_neg hx]
      rw [List.find?_cons_of_neg _ (by simpa using hx)]
      exact ih h

/-- The first session matching `cid` after an id-preserving per-session
update is the old first match, updated. -/
theorem find?_session_update (cid : String) (f : ChatSession → ChatSession)
    (hid : ∀ c, (f c).id = c.id) (chats : List ChatSession) (c0 : ChatSession)
    (h : chats.find? (fun c => c.id == cid) = some c0) :
    (chats.map (fun c => if c.id == cid then f c else c)).find? (fun c => c.id == cid) =
      some (f c0) := by
  induction chats with
  | nil => simp at h
  | cons x xs ih =>
    rw [List.map_cons]
    by_cases hx : (x.id == cid) = true
    · rw [List.find?_cons_of_pos xs hx] at h
      simp only [Option.some.injEq] at h
      subst h
      rw [if_pos hx]
      apply List.find?_cons_of_pos
      rw [beq_iff_eq] at hx ⊢
      rw [hid]
      exact hx
    · rw [List.find?_cons_of_neg xs (by simpa using hx)] at h
      rw [if_neg hx]
      rw [List.find?_cons_of_neg _ (by simpa using hx)]
      exact ih h

/-- Invariant of the read loop: as long as the placeholder's content equals
the accumulated buffer, it still does after any further chunks, with the
buffer advanced by the same chunks. -/
theorem processStream_invariant (cid aid : String) (t : Nat)
    (chunks : List (List Nat)) :
    ∀ (chats : List ChatSession) (d0 : DecSt) (c0 : ChatSession) (m0 : ChatMessage),
      chats.find? (fun c => c.id == cid) = some c0 →
      c0.messages.find? (fun m => m.id == aid) = some m0 →
      m0.content = String.mk d0.out →
      messageContent (chunks.foldl (readChunk cid aid t) ⟨chats, d0⟩).chats cid aid =
        some (String.mk (chunks.foldl decodeChunk d0).out) := by
  induction chunks with
  | nil =>
    intro chats d0 c0 m0 hc hm hcont
    simp only [List.foldl_nil]
    unfold messageContent
    rw [hc]
    simp [hm, hcont]
  | cons chunk rest ih =>
    intro chats d0 c0 m0 hc hm hcont
    simp only [List.foldl_cons]
    unfold readChunk
    refine ih
      (applyChunkUpdate cid aid (String.mk (decodeChunk d0 chunk).out) t chats)
      (decodeChunk d0 chunk)
      { c0 with
        messages := c0.messages.map (fun m =>
          if m.id == aid then
            { m with content := String.mk (decodeChunk d0 chunk).out } else m)
        updatedAt := t }
      { m0 with content := String.mk (decodeChunk d0 chunk).out }
      ?_ ?_ rfl
    · exact find?_session_update cid
        (fun chat =>
          { chat with
            messages := chat.messages.map (fun m =>
              if m.id == aid then
                { m with content := String.mk (decodeChunk d0 chunk).out } else m)
            updatedAt := t })
        (fun c => rfl) chats c0 hc
    · exact find?_message_update aid (String.mk (decodeChunk d0 chunk).out) c0.messages m0 hm

/-! ## C3: UTF-8-correct accumulation into the placeholder -/

/-- C3: for any chunk sequence whose concatenated bytes encode the string
`s` (chunk boundaries may split a multi-byte character), processing the
stream leaves the placeholder's content equal to `s`; after any prefix of
the chunks, the content equals the full accumulated decoded buffer so far
(overwrite, not append); and applying the same overwrite twice equals
applying it once. -/
theorem stream_accumulation_utf8 (chats : List ChatSession) (cid aid : String)
    (t : Nat) (c0 : ChatSession) (m0 : ChatMessage) (chunks : List (List Nat))
    (s : String)
    (hc : chats.find? (fun c => c.id == cid) = some c0)
    (hm : c0.messages.find? (fun m => m.id == aid) = some m0)
    (hm0 : m0.content = "")
    (hjoin : chunks.flatten = utf8Encode s) :
    messageContent (processStream cid aid t chats chunks).chats cid aid = some s ∧
    (∀ i, messageContent (processStream cid aid t chats (chunks.take i)).chats cid aid =
        some (String.mk ((chunks.take i).foldl decodeChunk freshDecSt).out)) ∧
    (∀ buf, applyChunkUpdate cid aid buf t (applyChunkUpdate cid aid buf t chats) =
        applyChunkUpdate cid aid buf t chats) := by
  refine ⟨?_, ?_, ?_⟩
  · unfold processStream
    rw [processStream_invariant cid aid t chunks chats freshDecSt c0 m0 hc hm hm0]
    rw [decodeChunks_eq_flatten, hjoin, decode_utf8Encode]
  · intro i
    unfold processStream
    exact processStream_invariant cid aid t (chunks.take i) chats freshDecSt c0 m0 hc hm hm0
  · intro buf
    unfold applyChunkUpdate upsertChat
    rw [List.map_map]
    apply List.map_congr_left
    intro c _
    simp only [Function.comp]
    by_cases hcAtId : (c.id == cid) = true
    · rw [if_pos hcAtId]
      have h2 : ((({ c with
          messages := c.messages.map (fun m =>
            if m.id == aid then { m with content := buf } else m)
          updatedAt := t } : ChatSession)).id == cid) = true := hcAtId
      rw [if_pos h2]
      have hmsgs :
          ((c.messages.map (fun m =>
              if m.id == aid then { m with content := buf } else m)).map (fun m =>
              if m.id == aid then { m with content := buf } else m)) =
            c.messages.map (fun m =>
              if m.id == aid then { m with content := buf } else m) := by
        rw [List.map_map]
        apply List.map_congr_left
        intro m _
        simp only [Function.comp]
        by_cases hmAtId : (m.id == aid) = true
        · rw [if_pos hmAtId]
          have h3 : ((({ m with content := buf } : ChatMessage)).id == aid) = true := hmAtId
          rw [if_pos h3]
        · rw [if_neg hmAtId, if_neg hmAtId]
      rw [hmsgs]
    · rw [if_neg hcAtId, if_neg hcAtId]

/-- Witness for C3: the two-byte character `é` split across two one-byte
chunks is reassembled, and the placeholder ends up holding exactly `é`. -/
theorem stream_accumulation_utf8_witness :
    ([(⟨"c1", "t", 0, 0, [⟨"a1", ChatRole.assistant, "", none⟩]⟩ : ChatSession)].find?
        (fun c => c.id == "c1") =
      some ⟨"c1", "t", 0, 0, [⟨"a1", ChatRole.assistant, "", none⟩]⟩) ∧
    ([[195], [169]] : List (List Nat)).flatten = utf8Encode "é" ∧
    messageContent
        (processStream "c1" "a1" 4
          [⟨"c1", "t", 0, 0, [⟨"a1", ChatRole.assistant, "", none⟩]⟩]
          [[195], [169]]).chats "c1" "a1" =
      some "é" :=
  ⟨by decide, by decide,
   (stream_accumulation_utf8
      [⟨"c1", "t", 0, 0, [⟨"a1", ChatRole.assistant, "", none⟩]⟩] "c1" "a1" 4
      ⟨"c1", "t", 0, 0, [⟨"a1", ChatRole.assistant, "", none⟩]⟩
      ⟨"a1", ChatRole.assistant, "", none⟩ [[195], [169]] "é"
      (by decide) (by decide) rfl (by decide)).1⟩
